import Mathlib

/-!
# Supply-chain chaincode (`chaincode_example.go`): embedding and properties

The Go chaincode is embedded with explicit state passing.  A shim stub is a
record holding the ledger, the events set so far and the schedule of store
failures; every handler takes a stub and returns its Go result pair together
with the stub it leaves behind.

Conventions of the embedding:

* Go `string` / `[]byte` values are Lean `String`s (texts that are valid UTF-8);
* Go `int` is the 64-bit two's-complement integer: values are `Int`s and the one
  addition of the program is wrapped explicitly (`wrapInt`);
* Go `error` is `Option GoError`, `none` being `nil`;
* `fmt.Printf` / `fmt.Println` only write to the process log and are left out.
-/

namespace Chaincode

/-! ## Go values -/

/-- Which shim call handed back an error. -/
inductive ShimCall where
  | getState
  | putState
  | delState
  | setEvent
deriving DecidableEq, Repr

/-- Go `error` values met in the chaincode: `errors.New msg`, or the error a
shim call returned. -/
inductive GoError where
  | new (msg : String)
  | shim (call : ShimCall)
deriving DecidableEq, Repr

/-- Result pair `([]byte, error)` of a handler. -/
abbrev Reply := Option String × Option GoError

/-- Result `return nil, errors.New(msg)`. -/
def failWith (msg : String) : Reply := (none, some (GoError.new msg))

/-- Result `return nil, nil`. -/
def succeed : Reply := (none, none)

/-! ## `strconv` -/

/-- Largest Go `int` (64-bit). -/
def maxInt : Int := 2 ^ 63 - 1

/-- Smallest Go `int` (64-bit). -/
def minInt : Int := -(2 ^ 63)

/-- Two's-complement wrap-around of a 64-bit `int` result. -/
def wrapInt (z : Int) : Int := (z + 2 ^ 63) % 2 ^ 64 - 2 ^ 63

/-- Why `strconv.Atoi` failed: `ErrSyntax` or `ErrRange`. -/
inductive NumError where
  | badSyntax
  | outOfRange
deriving DecidableEq, Repr

/-- Value of a decimal digit. -/
def digitVal (c : Char) : Option Nat :=
  if 48 ≤ c.toNat ∧ c.toNat ≤ 57 then some (c.toNat - 48) else none

/-- Sign and magnitude of a parsed decimal, clamped to the `int` range as
`strconv.ParseInt` does. -/
def clampInt (neg : Bool) (n : Nat) : Int × Option NumError :=
  if neg then
    if n ≤ 2 ^ 63 then (-(n : Int), none) else (minInt, some NumError.outOfRange)
  else
    if n < 2 ^ 63 then ((n : Int), none) else (maxInt, some NumError.outOfRange)

/-- Go `strconv.ParseUint` (base 10, 64 bits) on a non-empty text, digit by
digit: a character that is not a digit ends the scan with 0 and a syntax error;
as soon as the value no longer fits 64 bits the scan ends with the largest
`uint64` and a range error, whatever follows. -/
def parseUint : List Char → Nat → Nat × Option NumError
  | [], acc => (acc, none)
  | c :: cs, acc =>
    match digitVal c with
    | none => (0, some NumError.badSyntax)
    | some d =>
      if 2 ^ 64 ≤ 10 * acc + d then (2 ^ 64 - 1, some NumError.outOfRange)
      else parseUint cs (10 * acc + d)

/-- Go `strconv.ParseInt` after the optional sign: the empty text and a syntax
error of `ParseUint` give 0 with a syntax error; otherwise the magnitude, also
the one handed back with a range error, is clamped to the `int` range. -/
def atoiDigits (neg : Bool) (ds : List Char) : Int × Option NumError :=
  match ds with
  | [] => (0, some NumError.badSyntax)
  | _ :: _ =>
    match parseUint ds 0 with
    | (_, some NumError.badSyntax) => (0, some NumError.badSyntax)
    | (un, _) => clampInt neg un

/-- Go `strconv.Atoi`: an optional sign followed by one or more decimal digits.
On a syntax error the value is 0; on a range error it is the nearest bound. -/
def Atoi (s : String) : Int × Option NumError :=
  match s.data with
  | [] => atoiDigits false []
  | c :: r =>
    if c = '+' then atoiDigits false r
    else if c = '-' then atoiDigits true r
    else atoiDigits false (c :: r)

/-- Character of a decimal digit. -/
def digitChar (d : Nat) : Char := Char.ofNat (48 + d)

/-- Decimal digits of `n` in front of `acc`; `fuel` bounds the digit count. -/
def natDigitsAux : Nat → Nat → List Char → List Char
  | 0, _, acc => acc
  | fuel + 1, n, acc =>
    if n < 10 then digitChar n :: acc
    else natDigitsAux fuel (n / 10) (digitChar (n % 10) :: acc)

/-- Decimal digits of a natural number. -/
def natDigits (n : Nat) : List Char := natDigitsAux (n + 1) n []

/-- Go `strconv.Itoa`. -/
def Itoa (z : Int) : String :=
  if z < 0 then String.mk ('-' :: natDigits z.natAbs) else String.mk (natDigits z.toNat)

/-! ## The shim stub -/

/-- State behind a `shim.ChaincodeStubInterface`: the ledger, the events handed
to `SetEvent` (oldest first) and, for each coming shim call in order, whether it
fails (an exhausted schedule means no further failure). -/
structure Stub where
  ledger : String → Option String
  events : List (String × String)
  faults : List Bool

/-- Does the next shim call fail? -/
def Stub.failing (stub : Stub) : Bool := stub.faults.headD false

/-- Ledger `l` with `value` stored under `key`. -/
def setKey (l : String → Option String) (key value : String) : String → Option String :=
  fun k => if k = key then some value else l k

/-- Ledger `l` with `key` removed. -/
def dropKey (l : String → Option String) (key : String) : String → Option String :=
  fun k => if k = key then none else l k

/-- Shim `GetState`: the bytes under `key` (`nil` for an absent key). -/
def GetState (stub : Stub) (key : String) : (String × Option GoError) × Stub :=
  if stub.failing then
    (("", some (GoError.shim ShimCall.getState)), { stub with faults := stub.faults.tail })
  else
    (((stub.ledger key).getD "", none), { stub with faults := stub.faults.tail })

/-- Shim `PutState`. -/
def PutState (stub : Stub) (key value : String) : Option GoError × Stub :=
  if stub.failing then
    (some (GoError.shim ShimCall.putState), { stub with faults := stub.faults.tail })
  else
    (none, { stub with ledger := setKey stub.ledger key value, faults := stub.faults.tail })

/-- Shim `DelState`. -/
def DelState (stub : Stub) (key : String) : Option GoError × Stub :=
  if stub.failing then
    (some (GoError.shim ShimCall.delState), { stub with faults := stub.faults.tail })
  else
    (none, { stub with ledger := dropKey stub.ledger key, faults := stub.faults.tail })

/-- Shim `SetEvent`. -/
def SetEvent (stub : Stub) (name payload : String) : Option GoError × Stub :=
  if stub.failing then
    (some (GoError.shim ShimCall.setEvent), { stub with faults := stub.faults.tail })
  else
    (none, { stub with events := stub.events ++ [(name, payload)],
                       faults := stub.faults.tail })

/-- No scheduled shim call fails. -/
def quiet (faults : List Bool) : Prop := ∀ b ∈ faults, b = false

instance (faults : List Bool) : Decidable (quiet faults) := by
  unfold quiet; infer_instance

/-- All store and event calls on this stub succeed. -/
def Stub.healthy (stub : Stub) : Prop := quiet stub.faults

instance (stub : Stub) : Decidable stub.healthy := by
  unfold Stub.healthy; infer_instance

/-! ## Handlers that only validate -/

/-- Go `create_letter_of_credit`. -/
def create_letter_of_credit (stub : Stub) (args : List String) : Reply × Stub :=
  match args with
  | [a0, a1, _, a3, a4, a5, a6, a7, a8] =>
    if a0.length ≤ 0 then (failWith "1st argument must be a non-empty string", stub)
    else if a1.length ≤ 0 then (failWith "2nd argument must be a non-empty string", stub)
    else if a3.length ≤ 0 then (failWith "4th argument must be a non-empty string", stub)
    else if a4.length ≤ 0 then (failWith "5th argument must be a non-empty string", stub)
    else if a5.length ≤ 0 then (failWith "6th argument must be a non-empty string", stub)
    else if a6.length ≤ 0 then (failWith "7th argument must be a non-empty string", stub)
    else if a7.length ≤ 0 then (failWith "8th argument must be a non-empty string", stub)
    else if a8.length ≤ 0 then (failWith "9th argument must be a non-empty string", stub)
    else (succeed, stub)
  | _ => (failWith "Incorrect number of arguments. Expecting 9", stub)

/-- Go `shipment_activity`. -/
def shipment_activity (stub : Stub) (args : List String) : Reply × Stub :=
  match args with
  | [a0, a1, a2, a3, a4, a5, a6] =>
    if a0.length ≤ 0 then (failWith "1st argument must be a non-empty string", stub)
    else if a1.length ≤ 0 then (failWith "2nd argument must be a non-empty string", stub)
    else if a2.length ≤ 0 then (failWith "3nd argument must be a non-empty string", stub)
    else if a3.length ≤ 0 then (failWith "4nd argument must be a non-empty string", stub)
    else if a4.length ≤ 0 then (failWith "5nd argument must be a non-empty string", stub)
    else if a5.length ≤ 0 then (failWith "6nd argument must be a non-empty string", stub)
    else if a6.length ≤ 0 then (failWith "7nd argument must be a non-empty string", stub)
    else (succeed, stub)
  | _ => (failWith "Incorrect number of arguments. Expecting 7", stub)

/-- An argument that `strconv.Atoi` accepts. -/
def parsesAsInt (s : String) : Prop := (Atoi s).2 = none

instance (s : String) : Decidable (parsesAsInt s) := by
  unfold parsesAsInt; infer_instance

/-! ## `encoding/json`: reading

`json.Unmarshal` first checks that the whole input is one JSON value, then
stores what fits the target and skips what does not.  The text is read into a
`JValue`; the two targets of the chaincode (`[]string` and `ContractTerms`) are
filled from it. -/

/-- JSON value as scanned by `encoding/json`. -/
inductive JValue where
  | null
  | bool (b : Bool)
  | num (lit : String)
  | str (s : String)
  | arr (elems : List JValue)
  | obj (members : List (String × JValue))

/-- Skips JSON white space. -/
def skipWs : List Char → List Char
  | [] => []
  | c :: cs => if c = ' ' ∨ c = '\t' ∨ c = '\r' ∨ c = '\n' then skipWs cs else c :: cs

/-- Value of a hexadecimal digit. -/
def hexVal (c : Char) : Option Nat :=
  if 48 ≤ c.toNat ∧ c.toNat ≤ 57 then some (c.toNat - 48)
  else if 97 ≤ c.toNat ∧ c.toNat ≤ 102 then some (c.toNat - 87)
  else if 65 ≤ c.toNat ∧ c.toNat ≤ 70 then some (c.toNat - 55)
  else none

/-- The number written by four hexadecimal digits (`getu4`). -/
def hex4 (a b c d : Char) : Option Nat :=
  match hexVal a, hexVal b, hexVal c, hexVal d with
  | some x, some y, some z, some w => some (((x * 16 + y) * 16 + z) * 16 + w)
  | _, _, _, _ => none

/-- Is the UTF-16 unit a surrogate? -/
def isSurrogate (u : Nat) : Bool := decide (0xD800 ≤ u ∧ u < 0xE000)

/-- Go `utf16.DecodeRune`: the code point of a surrogate pair, U+FFFD otherwise. -/
def decodeSurrogates (hi lo : Nat) : Char :=
  if 0xD800 ≤ hi ∧ hi < 0xDC00 ∧ 0xDC00 ≤ lo ∧ lo < 0xE000 then
    Char.ofNat ((hi - 0xD800) * 1024 + (lo - 0xDC00) + 0x10000)
  else Char.ofNat 0xFFFD

/-- Prepends a decoded character to the rest of a string literal. -/
def consChar (c : Char) : Option (List Char × List Char) → Option (List Char × List Char)
  | some (s, r) => some (c :: s, r)
  | none => none

/-- Emits U+FFFD for a pending high surrogate that found no partner. -/
def flushPending : Option Nat → Option (List Char × List Char) → Option (List Char × List Char)
  | none, res => res
  | some _, res => consChar (Char.ofNat 0xFFFD) res

/-- Reads a string literal after its opening quote: the decoded text and what
follows the closing quote.  Raw control characters and unknown escapes are
rejected.  `pend` is a high-surrogate escape just read that still waits for its
low partner: with the partner the pair is one code point, without it the
surrogate becomes U+FFFD, as does a low surrogate on its own. -/
def stringBody : Option Nat → List Char → Option (List Char × List Char)
  | _, [] => none
  | p, c :: r =>
    if c = '"' then flushPending p (some ([], r))
    else if c = '\\' then
      match r with
      | [] => none
      | e :: r1 =>
        if e = '"' then flushPending p (consChar '"' (stringBody none r1))
        else if e = '\\' then flushPending p (consChar '\\' (stringBody none r1))
        else if e = '/' then flushPending p (consChar '/' (stringBody none r1))
        else if e = 'b' then flushPending p (consChar (Char.ofNat 8) (stringBody none r1))
        else if e = 'f' then flushPending p (consChar (Char.ofNat 12) (stringBody none r1))
        else if e = 'n' then flushPending p (consChar '\n' (stringBody none r1))
        else if e = 'r' then flushPending p (consChar '\r' (stringBody none r1))
        else if e = 't' then flushPending p (consChar '\t' (stringBody none r1))
        else if e = 'u' then
          match r1 with
          | a :: b :: c2 :: d :: r2 =>
            match hex4 a b c2 d with
            | none => none
            | some u =>
              match p, decide (0xDC00 ≤ u ∧ u < 0xE000) with
              | some hi, true => consChar (decodeSurrogates hi u) (stringBody none r2)
              | _, _ =>
                flushPending p
                  (if 0xD800 ≤ u ∧ u < 0xDC00 then stringBody (some u) r2
                   else if isSurrogate u then consChar (Char.ofNat 0xFFFD) (stringBody none r2)
                   else consChar (Char.ofNat u) (stringBody none r2))
          | _ => none
        else none
    else if c.toNat < 32 then none
    else flushPending p (consChar c (stringBody none r))

/-- Longest run of decimal digits at the front. -/
def takeDigits : List Char → List Char × List Char
  | [] => ([], [])
  | c :: cs =>
    if 48 ≤ c.toNat ∧ c.toNat ≤ 57 then ((c :: (takeDigits cs).1), (takeDigits cs).2)
    else ([], c :: cs)

/-- Integer part of a number literal: `0` or a digit run not starting with 0. -/
def intPart : List Char → Option (List Char × List Char)
  | [] => none
  | c :: cs =>
    if c = '0' then some ([c], cs)
    else if 49 ≤ c.toNat ∧ c.toNat ≤ 57 then some (c :: (takeDigits cs).1, (takeDigits cs).2)
    else none

/-- Optional fraction of a number literal. -/
def fracPart : List Char → Option (List Char × List Char)
  | '.' :: cs =>
    match takeDigits cs with
    | ([], _) => none
    | (d :: ds, r) => some ('.' :: d :: ds, r)
  | cs => some ([], cs)

/-- Digits of an exponent. -/
def expDigits (front : List Char) (cs : List Char) : Option (List Char × List Char) :=
  match takeDigits cs with
  | ([], _) => none
  | (d :: ds, r) => some (front ++ d :: ds, r)

/-- Optional exponent of a number literal. -/
def expPart : List Char → Option (List Char × List Char)
  | [] => some ([], [])
  | e :: cs =>
    if e = 'e' ∨ e = 'E' then
      match cs with
      | '+' :: r => expDigits [e, '+'] r
      | '-' :: r => expDigits [e, '-'] r
      | r => expDigits [e] r
    else some ([], e :: cs)

/-- Reads a number literal after its optional minus sign. -/
def unsignedLit (cs : List Char) : Option (List Char × List Char) :=
  match intPart cs with
  | none => none
  | some (i, r1) =>
    match fracPart r1 with
    | none => none
    | some (f, r2) =>
      match expPart r2 with
      | none => none
      | some (e, r3) => some (i ++ f ++ e, r3)

/-- Reads a number literal: its text and what follows. -/
def numberLit : List Char → Option (List Char × List Char)
  | '-' :: cs =>
    match unsignedLit cs with
    | none => none
    | some (l, r) => some ('-' :: l, r)
  | cs => unsignedLit cs

/-- Drops the given literal text from the front, if it is there. -/
def dropLit : List Char → List Char → Option (List Char)
  | [], cs => some cs
  | _ :: _, [] => none
  | l :: ls, c :: cs => if c = l then dropLit ls cs else none

/-- The literal name `lit` (after its first letter) read as the value `v`. -/
def literal (lit : List Char) (v : JValue) (cs : List Char) : Option (JValue × List Char) :=
  match dropLit lit cs with
  | none => none
  | some r => some (v, r)

mutual
/-- Reads one JSON value at the front of the text (white space already
skipped).  `fuel` bounds the nesting of the recursion. -/
def parseValue : Nat → List Char → Option (JValue × List Char)
  | 0, _ => none
  | _ + 1, [] => none
  | fuel + 1, c :: r =>
    if c = '[' then
      match skipWs r with
      | [] => none
      | c2 :: r2 =>
        if c2 = ']' then some (JValue.arr [], r2)
        else
          match parseElems fuel (c2 :: r2) with
          | none => none
          | some (vs, r3) => some (JValue.arr vs, r3)
    else if c = '\x7b' then
      match skipWs r with
      | [] => none
      | c2 :: r2 =>
        if c2 = '\x7d' then some (JValue.obj [], r2)
        else
          match parseMembers fuel (c2 :: r2) with
          | none => none
          | some (ms, r3) => some (JValue.obj ms, r3)
    else if c = '"' then
      match stringBody none r with
      | none => none
      | some (s, r2) => some (JValue.str (String.mk s), r2)
    else if c = 't' then literal ['r', 'u', 'e'] (JValue.bool true) r
    else if c = 'f' then literal ['a', 'l', 's', 'e'] (JValue.bool false) r
    else if c = 'n' then literal ['u', 'l', 'l'] JValue.null r
    else
      match numberLit (c :: r) with
      | none => none
      | some (l, r2) => some (JValue.num (String.mk l), r2)
/-- Reads the elements of a non-empty array up to and including `]`. -/
def parseElems : Nat → List Char → Option (List JValue × List Char)
  | 0, _ => none
  | fuel + 1, cs =>
    match parseValue fuel cs with
    | none => none
    | some (v, r) =>
      match skipWs r with
      | [] => none
      | c :: r2 =>
        if c = ',' then
          match parseElems fuel (skipWs r2) with
          | none => none
          | some (vs, r3) => some (v :: vs, r3)
        else if c = ']' then some ([v], r2)
        else none
/-- Reads the members of a non-empty object up to and including the closing
brace. -/
def parseMembers : Nat → List Char → Option (List (String × JValue) × List Char)
  | 0, _ => none
  | _ + 1, [] => none
  | fuel + 1, q :: r =>
    if q = '"' then
      match stringBody none r with
      | none => none
      | some (k, r1) =>
        match skipWs r1 with
        | [] => none
        | c :: r2 =>
          if c = ':' then
            match parseValue fuel (skipWs r2) with
            | none => none
            | some (v, r3) =>
              match skipWs r3 with
              | [] => none
              | c2 :: r4 =>
                if c2 = ',' then
                  match parseMembers fuel (skipWs r4) with
                  | none => none
                  | some (ms, r5) => some ((String.mk k, v) :: ms, r5)
                else if c2 = '\x7d' then some ([(String.mk k, v)], r4)
                else none
          else none
    else none
end

/-- Reads a whole text as one JSON value, white space allowed around it; `none`
when the text is not valid JSON.  Every level of nesting takes at least one
character, so twice the length is fuel enough; the nesting depth itself is not
limited. -/
def parseJSON (data : String) : Option JValue :=
  match parseValue (2 * data.length + 2) (skipWs data.data) with
  | none => none
  | some (v, r) =>
    match skipWs r with
    | [] => some v
    | _ :: _ => none

/-- What a JSON value leaves in a `string` slot that held `""`. -/
def stringOf : JValue → String
  | JValue.str s => s
  | _ => ""

/-- Go `json.Unmarshal(data, &x)` for `var x []string` (a nil slice, `none`):
an array fills the slice, every element that is not a string leaving `""`;
anything else leaves the slice nil. -/
def unmarshalStrings (data : String) : Option (List String) :=
  match parseJSON data with
  | some (JValue.arr vs) => some (vs.map stringOf)
  | _ => none

/-- Go `append(slice, s)` on a slice that may be nil. -/
def appendString (slice : Option (List String)) (s : String) : Option (List String) :=
  some (slice.getD [] ++ [s])

/-- Elements of a slice, the nil slice having none. -/
def elemsOf (slice : Option (List String)) : List String := slice.getD []

/-- Go struct `ContractTerms`. -/
structure ContractTerms where
  Max_Temperature_F : Int
  Product_Type : String
  ContractID : String
deriving DecidableEq, Repr

/-- The zero value `ContractTerms{}`. -/
def ContractTerms.zero : ContractTerms :=
  { Max_Temperature_F := 0, Product_Type := "", ContractID := "" }

/-- ASCII lower case of a character. -/
def asciiLower (c : Char) : Char :=
  if 65 ≤ c.toNat ∧ c.toNat ≤ 90 then Char.ofNat (c.toNat + 32) else c

/-- Does an object key select the field with JSON name `name`?  The match is
exact or differs only in the case of ASCII letters. -/
def keyMatches (name key : String) : Bool :=
  decide (key.data.map asciiLower = name.data.map asciiLower)

/-- Stores one object member into the struct: a value of the wrong JSON type,
`null`, or a number that is not an `int` leaves the field as it was; an
unknown key is skipped. -/
def setField (res : ContractTerms) (key : String) (v : JValue) : ContractTerms :=
  if keyMatches "max_temperature_f" key then
    match v with
    | JValue.num lit =>
      match Atoi lit with
      | (n, none) => { res with Max_Temperature_F := n }
      | (_, some _) => res
    | _ => res
  else if keyMatches "product" key then
    match v with
    | JValue.str s => { res with Product_Type := s }
    | _ => res
  else if keyMatches "contractID" key then
    match v with
    | JValue.str s => { res with ContractID := s }
    | _ => res
  else res

/-- Go `json.Unmarshal(data, &res)` for a `ContractTerms`: the members of an
object are stored in order; any other input leaves `res` untouched. -/
def unmarshalContractTerms (data : String) (res : ContractTerms) : ContractTerms :=
  match parseJSON data with
  | some (JValue.obj ms) => ms.foldl (fun acc kv => setField acc kv.1 kv.2) res
  | _ => res

/-! ## `encoding/json`: writing -/

/-- Lower-case hexadecimal digit. -/
def hexDigit (n : Nat) : Char :=
  if n < 10 then Char.ofNat (48 + n) else Char.ofNat (87 + n)

/-- How `json.Marshal` writes one character of a string. -/
def escapeChar (c : Char) : List Char :=
  if c = '"' then ['\\', '"']
  else if c = '\\' then ['\\', '\\']
  else if c = '\n' then ['\\', 'n']
  else if c = '\r' then ['\\', 'r']
  else if c = '\t' then ['\\', 't']
  else if c.toNat < 32 ∨ c = '<' ∨ c = '>' ∨ c = '&' then
    ['\\', 'u', '0', '0', hexDigit (c.toNat / 16), hexDigit (c.toNat % 16)]
  else if c.toNat = 0x2028 then ['\\', 'u', '2', '0', '2', '8']
  else if c.toNat = 0x2029 then ['\\', 'u', '2', '0', '2', '9']
  else [c]

/-- The characters of a string with their escapes. -/
def escapeChars : List Char → List Char
  | [] => []
  | c :: cs => escapeChar c ++ escapeChars cs

/-- String literal of `s`. -/
def quoteString (s : String) : List Char := '"' :: (escapeChars s.data ++ ['"'])

/-- String literals separated by commas. -/
def marshalElems : List String → List Char
  | [] => []
  | [s] => quoteString s
  | s :: t :: rest => quoteString s ++ ',' :: marshalElems (t :: rest)

/-- Go `json.Marshal` of a `[]string`: `null` for the nil slice. -/
def marshalStrings : Option (List String) → String
  | none => "null"
  | some l => String.mk ('[' :: (marshalElems l ++ [']']))

/-! ## The chaincode -/

/-- Key of the Contract Index. -/
def contractIndexStr : String := "_contractindex"

/-- Key of the Shipment Index. -/
def shipmentIndexStr : String := "_shipmentindex"

/-- Key of the Event Counter. -/
def EVENT_COUNTER : String := "event_counter"

/-- Go `strings.ToLower`: every code point is mapped by `unicode.ToLower`.  The
Unicode case tables belong to the Go runtime, so the code-point map is the
parameter `lower`. -/
def ToLower (lower : Char → Char) (s : String) : String := String.mk (s.data.map lower)

/-- Go `Init`. -/
def Init (stub : Stub) (_function : String) (args : List String) : Reply × Stub :=
  match args with
  | [a0] =>
    match Atoi a0 with
    | (_, some _) => (failWith "Expecting integer value for asset holding", stub)
    | (Aval, none) =>
      match PutState stub "abc" (Itoa Aval) with
      | (some err, stub1) => ((none, some err), stub1)
      | (none, stub1) =>
        let jsonAsBytes := marshalStrings none
        match PutState stub1 contractIndexStr jsonAsBytes with
        | (some err, stub2) => ((none, some err), stub2)
        | (none, stub2) =>
          match PutState stub2 shipmentIndexStr jsonAsBytes with
          | (some err, stub3) => ((none, some err), stub3)
          | (none, stub3) =>
            match PutState stub3 EVENT_COUNTER "1" with
            | (some err, stub4) => ((none, some err), stub4)
            | (none, stub4) => (succeed, stub4)
  | _ => (failWith "Incorrect number of arguments. Expecting 1", stub)

/-- The record text `init_terms` builds by hand. -/
def contractJson (contract_id product_type : String) (max_temperature_f : Int) : String :=
  "\x7b\"contract_ID\": \"" ++ contract_id ++ "\", \"product_type\": \"" ++ product_type
    ++ "\", \"max_temperature_f\": \"" ++ Itoa max_temperature_f ++ "\"\x7d"

/-- The "Event based" block that ends `init_terms` and `Invoke`: reads the
counter, writes it back incremented, sets the event; `done` is the result
returned when all three calls succeed. -/
def emitEvent (stub : Stub) (done : Reply) : Reply × Stub :=
  match GetState stub EVENT_COUNTER with
  | ((_, some _), stub1) => (failWith "Failed to get state", stub1)
  | ((b, none), stub1) =>
    let noevts := (Atoi b).1
    let tosend := "Event Counter is " ++ b
    match PutState stub1 EVENT_COUNTER (Itoa (wrapInt (noevts + 1))) with
    | (some err, stub2) => ((none, some err), stub2)
    | (none, stub2) =>
      match SetEvent stub2 "evtsender" tosend with
      | (some err, stub3) => ((none, some err), stub3)
      | (none, stub3) => (done, stub3)

/-- Go `init_terms`.  The test `if err != nil` before the `Atoi` call reads the
`err` declared at the top, still nil, so it never fires; the error of
`strconv.Atoi` and the error of the index `PutState` are both overwritten by
the next assignment to `err` before anything reads them. -/
def init_terms (lower : Char → Char) (stub : Stub) (args : List String) : Reply × Stub :=
  match args with
  | [a0, a1, a2] =>
    if a0.length ≤ 0 then (failWith "1st argument must be a non-empty string", stub)
    else if a1.length ≤ 0 then (failWith "2nd argument must be a number", stub)
    else if a2.length ≤ 0 then (failWith "3nd argument must be a non-empty string", stub)
    else
      let contract_id := a0
      let product_type := ToLower lower a1
      let max_temperature_f := (Atoi a2).1
      match GetState stub contract_id with
      | ((_, some _), stub1) => (failWith "Failed to get state", stub1)
      | ((contractAsBytes, none), stub1) =>
        let res := unmarshalContractTerms contractAsBytes ContractTerms.zero
        if res.ContractID = contract_id then
          (failWith ("Terms of Contract for product " ++ res.ContractID ++ " already exists"),
            stub1)
        else
          let str := contractJson contract_id product_type max_temperature_f
          match PutState stub1 contract_id str with
          | (some err, stub2) => ((none, some err), stub2)
          | (none, stub2) =>
            match GetState stub2 contractIndexStr with
            | ((_, some _), stub3) => (failWith "Failed to get contract terms index", stub3)
            | ((contractsAsBytes, none), stub3) =>
              let contractIndex := unmarshalStrings contractsAsBytes
              let contractIndex := appendString contractIndex product_type
              let jsonAsBytes := marshalStrings contractIndex
              let stub4 := (PutState stub3 contractIndexStr jsonAsBytes).2
              emitEvent stub4 succeed
  | _ => (failWith "Incorrect number of arguments. Expecting 3", stub)

/-- Go `Invoke`.  The results of `create_letter_of_credit` and
`shipment_activity` are dropped by the Go code; only the stub they leave is
carried on. -/
def Invoke (lower : Char → Char) (stub : Stub) (function : String) (args : List String) :
    Reply × Stub :=
  if function = "init" then Init stub "init" args
  else if function = "init_contract_terms" then init_terms lower stub args
  else
    let stub0 :=
      if function = "create_loc" then (create_letter_of_credit stub args).2
      else if function = "shipment_activity" then (shipment_activity stub args).2
      else stub
    emitEvent stub0 (failWith "Received unknown function invocation")

/-- Go `delete`. -/
def delete (stub : Stub) (args : List String) : Reply × Stub :=
  match args with
  | [A] =>
    match DelState stub A with
    | (some _, stub1) => (failWith "Failed to delete state", stub1)
    | (none, stub1) => (succeed, stub1)
  | _ => (failWith "Incorrect number of arguments. Expecting 1", stub)

/-- Go `Query`. -/
def Query (stub : Stub) (function : String) (args : List String) : Reply × Stub :=
  if function ≠ "query" then
    (failWith "Invalid query function name. Expecting \"query\"", stub)
  else
    match args with
    | [_] => (succeed, stub)
    | _ => (failWith "Incorrect number of arguments. Expecting name of the person to query",
        stub)

/-- The stub `init_terms` hands to the event block once the record and the index
are written. -/
def termsWritten (lower : Char → Char) (stub : Stub) (a0 a1 a2 : String) : Stub :=
  { ledger :=
      setKey (setKey stub.ledger a0 (contractJson a0 (ToLower lower a1) (Atoi a2).1))
        contractIndexStr
        (marshalStrings (appendString
          (unmarshalStrings
            ((setKey stub.ledger a0 (contractJson a0 (ToLower lower a1) (Atoi a2).1)
              contractIndexStr).getD ""))
          (ToLower lower a1))),
    events := stub.events,
    faults := stub.faults.tail.tail.tail.tail }

/-! ## Reading the ledger -/

/-- The sequence of strings the Contract Index decodes to. -/
def contractIndexOf (stub : Stub) : List String :=
  elemsOf (unmarshalStrings ((stub.ledger contractIndexStr).getD ""))

/-- The sequence of strings the Shipment Index decodes to. -/
def shipmentIndexOf (stub : Stub) : List String :=
  elemsOf (unmarshalStrings ((stub.ledger shipmentIndexStr).getD ""))

/-- The Event Counter holds the decimal text of `n`. -/
def counterHolds (stub : Stub) (n : Int) : Prop :=
  stub.ledger EVENT_COUNTER = some (Itoa n)

/-- A ledger with nothing stored, no event set and no failing call. -/
def emptyStub : Stub := { ledger := fun _ => none, events := [], faults := [] }

/-- The stub left by `Init(["0"])` on the empty ledger. -/
def freshStub : Stub := (Init emptyStub "init" ["0"]).2

instance (stub : Stub) (n : Int) : Decidable (counterHolds stub n) := by
  unfold counterHolds; infer_instance

/-- The stub left by a first `init_terms("C100", "Produce", "40")` after `Init`. -/
def onceStub : Stub := (init_terms asciiLower freshStub ["C100", "Produce", "40"]).2

/-- A ledger holding only the Contract Index, with the given text. -/
def indexStub (text : String) : Stub :=
  { ledger := setKey (fun _ => none) contractIndexStr text, events := [], faults := [] }

/-- Messages of the argument-count, empty-argument and non-integer errors that
the handlers return. -/
def validationMessages : List String :=
  [ "Incorrect number of arguments. Expecting 1",
    "Incorrect number of arguments. Expecting 3",
    "Incorrect number of arguments. Expecting 7",
    "Incorrect number of arguments. Expecting 9",
    "Incorrect number of arguments. Expecting name of the person to query",
    "Expecting integer value for asset holding",
    "1st argument must be a non-empty string",
    "2nd argument must be a non-empty string",
    "2nd argument must be a number",
    "2nd argument must be a numeric string",
    "3nd argument must be a non-empty string",
    "4th argument must be a non-empty string",
    "4nd argument must be a non-empty string",
    "5th argument must be a non-empty string",
    "5nd argument must be a non-empty string",
    "6th argument must be a non-empty string",
    "6nd argument must be a non-empty string",
    "7th argument must be a non-empty string",
    "7nd argument must be a non-empty string",
    "8th argument must be a non-empty string",
    "9th argument must be a non-empty string" ]

/-- The error is an argument-count, empty-argument or non-integer error. -/
def isValidationError (err : Option GoError) : Prop :=
  ∃ msg, msg ∈ validationMessages ∧ err = some (GoError.new msg)

/-- The ledger right after `Init`, with the given schedule of shim-call failures
ahead. -/
def faultyStub (faults : List Bool) : Stub := { freshStub with faults := faults }

/-! ## Theorems -/

theorem length_le_zero_iff (s : String) : s.length ≤ 0 ↔ s = "" := by
  rcases s with ⟨l⟩
  cases l <;> simp [String.length, String.ext_iff]

theorem length_eq_zero_iff (s : String) : s.length = 0 ↔ s = "" := by
  rcases s with ⟨l⟩
  cases l <;> simp [String.length, String.ext_iff]

/-! ### Shim calls that do not fail -/

theorem quiet_nil : quiet [] := by
  intro b hb
  cases hb

theorem quiet_tail {fs : List Bool} (h : quiet fs) : quiet fs.tail := by
  intro b hb
  exact h b (List.mem_of_mem_tail hb)

theorem quiet_headD {fs : List Bool} (h : quiet fs) : fs.headD false = false := by
  cases fs with
  | nil => rfl
  | cons b t => exact h b (List.mem_cons_self b t)

theorem GetState_quiet (stub : Stub) (key : String) (h : quiet stub.faults) :
    GetState stub key =
      (((stub.ledger key).getD "", none), { stub with faults := stub.faults.tail }) := by
  unfold GetState Stub.failing
  rw [quiet_headD h]
  simp

theorem PutState_quiet (stub : Stub) (key value : String) (h : quiet stub.faults) :
    PutState stub key value =
      (none, { stub with ledger := setKey stub.ledger key value,
                         faults := stub.faults.tail }) := by
  unfold PutState Stub.failing
  rw [quiet_headD h]
  simp

theorem SetEvent_quiet (stub : Stub) (name payload : String) (h : quiet stub.faults) :
    SetEvent stub name payload =
      (none, { stub with events := stub.events ++ [(name, payload)],
                         faults := stub.faults.tail }) := by
  unfold SetEvent Stub.failing
  rw [quiet_headD h]
  simp

/-! ### `Itoa` and `Atoi` -/

theorem hexVal_hexDigit (d : Nat) (hd : d < 16) : hexVal (hexDigit d) = some d := by
  interval_cases d <;> decide

theorem hex4_escape (n : Nat) (hn : n < 128) :
    hex4 '0' '0' (hexDigit (n / 16)) (hexDigit (n % 16)) = some n := by
  have h0 : hexVal '0' = some 0 := by decide
  have h1 : n / 16 < 16 := by omega
  have h2 : n % 16 < 16 := by omega
  simp only [hex4, h0, hexVal_hexDigit _ h1, hexVal_hexDigit _ h2]
  congr 1
  omega

theorem stringBody_quote (rest : List Char) :
    stringBody none ('"' :: rest) = some ([], rest) := by
  rw [stringBody.eq_def]
  simp [flushPending]

theorem stringBody_unit (c : Char) (r : List Char) (hc : c.toNat < 128) :
    stringBody none
        ('\\' :: 'u' :: '0' :: '0' :: hexDigit (c.toNat / 16) :: hexDigit (c.toNat % 16) :: r) =
      consChar c (stringBody none r) := by
  have hs : isSurrogate c.toNat = false := by
    simp only [isSurrogate, decide_eq_false_iff_not]
    omega
  have hd1 : ¬ (0xDC00 ≤ c.toNat ∧ c.toNat < 0xE000) := by omega
  have hd2 : ¬ (0xD800 ≤ c.toNat ∧ c.toNat < 0xDC00) := by omega
  rw [stringBody]
  simp [hex4_escape c.toNat hc, flushPending, hs, hd1, hd2, Char.ofNat_toNat]

theorem stringBody_escapeChar (c : Char) (r : List Char) :
    stringBody none (escapeChar c ++ r) = consChar c (stringBody none r) := by
  unfold escapeChar
  split_ifs with h1 h2 h3 h4 h5 h6 h7 h8
  · subst h1
    rw [stringBody.eq_def]
    simp [flushPending]
  · subst h2
    rw [stringBody.eq_def]
    simp [flushPending]
  · subst h3
    rw [stringBody.eq_def]
    simp [flushPending]
  · subst h4
    rw [stringBody.eq_def]
    simp [flushPending]
  · subst h5
    rw [stringBody.eq_def]
    simp [flushPending]
  · have hc : c.toNat < 128 := by
      rcases h6 with h | h | h | h
      · omega
      · subst h; decide
      · subst h; decide
      · subst h; decide
    exact stringBody_unit c r hc
  · have hc : c = Char.ofNat 0x2028 := by
      rw [← Char.ofNat_toNat c, h7]
    subst hc
    have hx : hex4 '2' '0' '2' '8' = some 0x2028 := by decide
    have hs : isSurrogate 0x2028 = false := by decide
    rw [stringBody.eq_def]
    simp [flushPending, hx, hs]
  · have hc : c = Char.ofNat 0x2029 := by
      rw [← Char.ofNat_toNat c, h8]
    subst hc
    have hx : hex4 '2' '0' '2' '9' = some 0x2029 := by decide
    have hs : isSurrogate 0x2029 = false := by decide
    rw [stringBody.eq_def]
    simp [flushPending, hx, hs]
  · have h32 : ¬ c.toNat < 32 := fun h => h6 (Or.inl h)
    rw [List.singleton_append, stringBody.eq_def]
    simp [flushPending, h1, h2, h32]

theorem stringBody_escapeChars (cs rest : List Char) :
    stringBody none (escapeChars cs ++ '"' :: rest) = some (cs, rest) := by
  induction cs with
  | nil => exact stringBody_quote rest
  | cons c t ih =>
    rw [escapeChars, List.append_assoc, stringBody_escapeChar, ih]
    rfl

theorem parseValue_quoteString (fuel : Nat) (s : String) (rest : List Char) :
    parseValue (fuel + 1) (quoteString s ++ rest) = some (JValue.str s, rest) := by
  have e : quoteString s ++ rest = '"' :: (escapeChars s.data ++ '"' :: rest) := by
    simp [quoteString]
  rw [e, parseValue]
  simp [stringBody_escapeChars]

theorem parseElems_marshalElems (l : List String) (hl : l ≠ []) :
    ∀ (fuel : Nat) (rest : List Char), l.length < fuel →
      parseElems fuel (marshalElems l ++ ']' :: rest) = some (l.map JValue.str, rest) := by
  induction l with
  | nil => exact absurd rfl hl
  | cons s t ih =>
    intro fuel rest hf
    cases fuel with
    | zero => omega
    | succ f =>
      cases f with
      | zero => simp at hf
      | succ g =>
        cases t with
        | nil =>
          rw [marshalElems, parseElems, parseValue_quoteString]
          simp [skipWs]
        | cons u v =>
          have hlen : (u :: v).length < g + 1 := by
            simp only [List.length_cons] at hf ⊢
            omega
          have e : marshalElems (s :: u :: v) ++ ']' :: rest =
              quoteString s ++ (',' :: (marshalElems (u :: v) ++ ']' :: rest)) := by
            simp [marshalElems]
          have hq : ∃ w, marshalElems (u :: v) ++ ']' :: rest = '"' :: w := by
            cases v <;> simp [marshalElems, quoteString]
          obtain ⟨w, hw⟩ := hq
          have ih2 := ih (by simp) (g + 1) rest hlen
          rw [e, parseElems, parseValue_quoteString]
          rw [hw] at ih2 ⊢
          simp [skipWs, ih2]

theorem marshalElems_head (l : List String) (hl : l ≠ []) (rest : List Char) :
    ∃ w, marshalElems l ++ rest = '"' :: w := by
  rcases l with _ | ⟨s, _ | ⟨u, v⟩⟩
  · exact absurd rfl hl
  · simp only [marshalElems, quoteString, List.cons_append]
    exact ⟨_, rfl⟩
  · simp only [marshalElems, quoteString, List.cons_append]
    exact ⟨_, rfl⟩

theorem marshalElems_length (l : List String) : l.length ≤ (marshalElems l).length := by
  induction l with
  | nil => simp
  | cons s t ih =>
    cases t with
    | nil => simp [marshalElems, quoteString]
    | cons u v =>
      simp only [marshalElems, quoteString, List.length_cons, List.length_append,
        List.cons_append] at ih ⊢
      omega

theorem parseJSON_marshalStrings (l : List String) :
    parseJSON (marshalStrings (some l)) = some (JValue.arr (l.map JValue.str)) := by
  by_cases hl : l = []
  · subst hl
    rfl
  · obtain ⟨w, hw⟩ := marshalElems_head l hl [']']
    have hlen := marshalElems_length l
    have hp := parseElems_marshalElems l hl
      (2 * (String.mk ('[' :: (marshalElems l ++ [']']))).length + 1) [] (by
        simp only [String.length, List.length_cons, List.length_append]
        omega)
    simp only [parseJSON, marshalStrings]
    rw [show 2 * (String.mk ('[' :: (marshalElems l ++ [']']))).length + 2 =
      (2 * (String.mk ('[' :: (marshalElems l ++ [']']))).length + 1) + 1 from rfl]
    rw [hw] at hp ⊢
    simp only [String.length, List.length_cons] at hp
    simp [skipWs, parseValue, hp]

theorem unmarshal_marshalStrings (l : List String) :
    unmarshalStrings (marshalStrings (some l)) = some l := by
  simp [unmarshalStrings, parseJSON_marshalStrings, stringOf, Function.comp_def]


/-! ### `Init` -/

theorem Init_ok_eq (stub : Stub) (function a : String) (h : stub.healthy)
    (ha : parsesAsInt a) :
    Init stub function [a] =
      (succeed,
        { ledger := setKey (setKey (setKey (setKey stub.ledger "abc" (Itoa (Atoi a).1))
            contractIndexStr "null") shipmentIndexStr "null") EVENT_COUNTER "1",
          events := stub.events,
          faults := stub.faults.tail.tail.tail.tail }) := by
  unfold Stub.healthy at h
  unfold parsesAsInt at ha
  rcases hA : Atoi a with ⟨v, e⟩
  rw [hA] at ha
  simp only at ha
  subst ha
  have h1 := quiet_tail h
  have h2 := quiet_tail h1
  have h3 := quiet_tail h2
  simp [Init, hA, PutState_quiet, h, h1, h2, h3, marshalStrings]

theorem Init_error_of_not_int (stub : Stub) (function : String) (args : List String)
    (hn : ¬ ∃ a, args = [a] ∧ parsesAsInt a) :
    (Init stub function args).1.2 ≠ none ∧ (Init stub function args).2 = stub := by
  rcases args with _ | ⟨a, _ | ⟨b, t⟩⟩
  · simp [Init, failWith]
  · have ha : ¬ parsesAsInt a := fun h => hn ⟨a, rfl, h⟩
    unfold parsesAsInt at ha
    rcases hA : Atoi a with ⟨v, e⟩
    rw [hA] at ha
    cases e with
    | none => exact absurd rfl ha
    | some e => simp [Init, hA, failWith]
  · simp [Init, failWith]

theorem unmarshalStrings_null : unmarshalStrings "null" = none := by decide

theorem Init_ok_effect (stub : Stub) (function a : String) (h : stub.healthy)
    (ha : parsesAsInt a) :
    (Init stub function [a]).1.2 = none ∧
    (Init stub function [a]).2.ledger "abc" = some (Itoa (Atoi a).1) ∧
    contractIndexOf (Init stub function [a]).2 = [] ∧
    shipmentIndexOf (Init stub function [a]).2 = [] ∧
    (Init stub function [a]).2.ledger EVENT_COUNTER = some "1" ∧
    ∀ k, k ≠ "abc" → k ≠ contractIndexStr → k ≠ shipmentIndexStr → k ≠ EVENT_COUNTER →
      (Init stub function [a]).2.ledger k = stub.ledger k := by
  rw [Init_ok_eq stub function a h ha]
  refine ⟨rfl, ?_, ?_, ?_, ?_, ?_⟩
  · simp [setKey, contractIndexStr, shipmentIndexStr, EVENT_COUNTER]
  · simp [contractIndexOf, setKey, contractIndexStr, shipmentIndexStr, EVENT_COUNTER,
      unmarshalStrings_null, elemsOf]
  · simp [shipmentIndexOf, setKey, contractIndexStr, shipmentIndexStr, EVENT_COUNTER,
      unmarshalStrings_null, elemsOf]
  · simp [setKey]
  · intro k h1 h2 h3 h4
    simp [setKey, h1, h2, h3, h4]

/-! ### The event block -/

theorem create_letter_of_credit_stub (stub : Stub) (args : List String) :
    (create_letter_of_credit stub args).2 = stub := by
  unfold create_letter_of_credit
  split
  · split_ifs <;> rfl
  · rfl

theorem shipment_activity_stub (stub : Stub) (args : List String) :
    (shipment_activity stub args).2 = stub := by
  unfold shipment_activity
  split
  · split_ifs <;> rfl
  · rfl

/-- Outside "init" and "init_contract_terms", `Invoke` is the event block run on
the incoming stub, ending in the "unknown function" error. -/
theorem Invoke_fallthrough (lower : Char → Char) (stub : Stub) (function : String)
    (args : List String) (h1 : function ≠ "init") (h2 : function ≠ "init_contract_terms") :
    Invoke lower stub function args =
      emitEvent stub (failWith "Received unknown function invocation") := by
  unfold Invoke
  rw [if_neg h1, if_neg h2]
  simp only [create_letter_of_credit_stub, shipment_activity_stub, ite_self]

/-! ### `init_terms` -/

theorem init_terms_quiet (lower : Char → Char) (stub : Stub) (a0 a1 a2 : String)
    (h : quiet stub.faults) (h0 : a0 ≠ "") (h1 : a1 ≠ "") (h2 : a2 ≠ "")
    (hnew : (unmarshalContractTerms ((stub.ledger a0).getD "") ContractTerms.zero).ContractID
      ≠ a0) :
    init_terms lower stub [a0, a1, a2] =
      emitEvent (termsWritten lower stub a0 a1 a2) succeed := by
  have q1 := quiet_tail h
  have q2 := quiet_tail q1
  have q3 := quiet_tail q2
  simp [init_terms, termsWritten, length_le_zero_iff, length_eq_zero_iff, h0, h1, h2, GetState_quiet,
    PutState_quiet, h, q1, q2, q3, hnew]

theorem init_terms_ok_inv (lower : Char → Char) (stub : Stub) (args : List String)
    (h : quiet stub.faults) (hok : (init_terms lower stub args).1.2 = none) :
    ∃ a0 a1 a2, args = [a0, a1, a2] ∧ a0 ≠ "" ∧ a1 ≠ "" ∧ a2 ≠ "" ∧
      (unmarshalContractTerms ((stub.ledger a0).getD "") ContractTerms.zero).ContractID
        ≠ a0 := by
  rcases args with _ | ⟨a0, _ | ⟨a1, _ | ⟨a2, _ | ⟨a3, t⟩⟩⟩⟩
  · simp [init_terms, failWith] at hok
  · simp [init_terms, failWith] at hok
  · simp [init_terms, failWith] at hok
  · refine ⟨a0, a1, a2, rfl, ?_⟩
    by_cases h0 : a0 = ""
    · simp [init_terms, failWith, length_eq_zero_iff, h0] at hok
    by_cases h1 : a1 = ""
    · simp [init_terms, failWith, length_le_zero_iff, length_eq_zero_iff, h0, h1] at hok
    by_cases h2 : a2 = ""
    · simp [init_terms, failWith, length_le_zero_iff, length_eq_zero_iff, h0, h1, h2] at hok
    refine ⟨h0, h1, h2, ?_⟩
    intro hdup
    simp [init_terms, failWith, length_le_zero_iff, length_eq_zero_iff, h0, h1, h2, GetState_quiet, h, hdup]
      at hok
  · simp [init_terms, failWith] at hok

theorem emitEvent_quiet_any (stub : Stub) (done : Reply) (h : quiet stub.faults) :
    emitEvent stub done =
      (done,
        { ledger := setKey stub.ledger EVENT_COUNTER
            (Itoa (wrapInt ((Atoi ((stub.ledger EVENT_COUNTER).getD "")).1 + 1))),
          events := stub.events ++
            [("evtsender", "Event Counter is " ++ (stub.ledger EVENT_COUNTER).getD "")],
          faults := stub.faults.tail.tail.tail }) := by
  have h1 := quiet_tail h
  have h2 := quiet_tail h1
  simp [emitEvent, GetState_quiet, PutState_quiet, SetEvent_quiet, h, h1, h2]

theorem GetState_frame (stub : Stub) (key : String) :
    (GetState stub key).2.ledger = stub.ledger ∧ (GetState stub key).2.events = stub.events := by
  unfold GetState
  split_ifs <;> exact ⟨rfl, rfl⟩

theorem PutState_frame (stub : Stub) (key value k : String) (hk : k ≠ key) :
    (PutState stub key value).2.ledger k = stub.ledger k ∧
      (PutState stub key value).2.events = stub.events := by
  unfold PutState
  split_ifs
  · exact ⟨rfl, rfl⟩
  · exact ⟨by simp [setKey, hk], rfl⟩

theorem SetEvent_frame (stub : Stub) (name payload : String) :
    (SetEvent stub name payload).2.ledger = stub.ledger := by
  unfold SetEvent
  split_ifs <;> rfl

theorem emitEvent_frame (stub : Stub) (done : Reply) (k : String) (hk : k ≠ EVENT_COUNTER) :
    (emitEvent stub done).2.ledger k = stub.ledger k := by
  unfold emitEvent
  rcases h1 : GetState stub EVENT_COUNTER with ⟨⟨b, e⟩, s1⟩
  have f1 := (GetState_frame stub EVENT_COUNTER).1
  rw [h1] at f1
  simp only at f1
  cases e with
  | some e => simp only [f1]
  | none =>
    simp only
    rcases h2 : PutState s1 EVENT_COUNTER (Itoa (wrapInt ((Atoi b).1 + 1))) with ⟨e2, s2⟩
    have f2 := (PutState_frame s1 EVENT_COUNTER (Itoa (wrapInt ((Atoi b).1 + 1))) k hk).1
    rw [h2] at f2
    simp only at f2
    cases e2 with
    | some e2 => simp only [f2, f1]
    | none =>
      simp only
      rcases h3 : SetEvent s2 "evtsender" ("Event Counter is " ++ b) with ⟨e3, s3⟩
      have f3 := SetEvent_frame s2 "evtsender" ("Event Counter is " ++ b)
      rw [h3] at f3
      simp only at f3
      cases e3 <;> simp only [f3, f2, f1]

theorem Query_stub (stub : Stub) (function : String) (args : List String) :
    (Query stub function args).2 = stub := by
  unfold Query
  split_ifs
  · rfl
  · split <;> rfl

theorem DelState_quiet (stub : Stub) (key : String) (h : quiet stub.faults) :
    DelState stub key =
      (none, { stub with ledger := dropKey stub.ledger key, faults := stub.faults.tail }) := by
  unfold DelState Stub.failing
  rw [quiet_headD h]
  simp

theorem delete_quiet (stub : Stub) (k : String) (h : quiet stub.faults) :
    delete stub [k] =
      (succeed, { stub with ledger := dropKey stub.ledger k, faults := stub.faults.tail }) := by
  simp [delete, DelState_quiet stub k h]

theorem PutState_error (stub : Stub) (key value : String) :
    (PutState stub key value).1 = none ∨
      (PutState stub key value).1 = some (GoError.shim ShimCall.putState) := by
  unfold PutState
  split_ifs
  · exact Or.inr rfl
  · exact Or.inl rfl

theorem SetEvent_error (stub : Stub) (name payload : String) :
    (SetEvent stub name payload).1 = none ∨
      (SetEvent stub name payload).1 = some (GoError.shim ShimCall.setEvent) := by
  unfold SetEvent
  split_ifs
  · exact Or.inr rfl
  · exact Or.inl rfl

/-- The event block ends in `done`, in its own "Failed to get state", or in the
error of a shim call. -/
theorem emitEvent_error (stub : Stub) (done : Reply) :
    (emitEvent stub done).1 = done ∨
    (emitEvent stub done).1.2 = some (GoError.new "Failed to get state") ∨
    ∃ c, (emitEvent stub done).1.2 = some (GoError.shim c) := by
  unfold emitEvent
  rcases h1 : GetState stub EVENT_COUNTER with ⟨⟨b, e⟩, s1⟩
  cases e with
  | some e => exact Or.inr (Or.inl rfl)
  | none =>
    simp only
    rcases h2 : PutState s1 EVENT_COUNTER (Itoa (wrapInt ((Atoi b).1 + 1))) with ⟨e2, s2⟩
    have p2 := PutState_error s1 EVENT_COUNTER (Itoa (wrapInt ((Atoi b).1 + 1)))
    rw [h2] at p2
    simp only at p2
    cases e2 with
    | some e2 =>
      rcases p2 with p2 | p2
      · cases p2
      · exact Or.inr (Or.inr ⟨_, p2⟩)
    | none =>
      simp only
      rcases h3 : SetEvent s2 "evtsender" ("Event Counter is " ++ b) with ⟨e3, s3⟩
      have p3 := SetEvent_error s2 "evtsender" ("Event Counter is " ++ b)
      rw [h3] at p3
      simp only at p3
      cases e3 with
      | some e3 =>
        rcases p3 with p3 | p3
        · cases p3
        · exact Or.inr (Or.inr ⟨_, p3⟩)
      | none => exact Or.inl rfl

/-- Either `init_terms` leaves the ledger and the events as they were, or it ends
without error, in "Failed to get state", in "Failed to get contract terms index",
or in the error of a shim call. -/
theorem init_terms_error_kinds (lower : Char → Char) (stub : Stub) (args : List String) :
    ((init_terms lower stub args).2.ledger = stub.ledger ∧
      (init_terms lower stub args).2.events = stub.events) ∨
    (init_terms lower stub args).1.2 = none ∨
    (init_terms lower stub args).1.2 = some (GoError.new "Failed to get state") ∨
    (init_terms lower stub args).1.2 =
      some (GoError.new "Failed to get contract terms index") ∨
    ∃ c, (init_terms lower stub args).1.2 = some (GoError.shim c) := by
  rcases args with _ | ⟨a0, _ | ⟨a1, _ | ⟨a2, _ | ⟨a3, t⟩⟩⟩⟩
  · exact Or.inl ⟨rfl, rfl⟩
  · exact Or.inl ⟨rfl, rfl⟩
  · exact Or.inl ⟨rfl, rfl⟩
  · simp only [init_terms]
    split_ifs
    · exact Or.inl ⟨rfl, rfl⟩
    · exact Or.inl ⟨rfl, rfl⟩
    · exact Or.inl ⟨rfl, rfl⟩
    · rcases h1 : GetState stub a0 with ⟨⟨b, e⟩, s1⟩
      have f1 := GetState_frame stub a0
      rw [h1] at f1
      simp only at f1
      cases e with
      | some e => exact Or.inl f1
      | none =>
        simp only
        split_ifs
        · exact Or.inl f1
        · rcases h2 : PutState s1 a0 (contractJson a0 (ToLower lower a1) (Atoi a2).1)
            with ⟨e2, s2⟩
          have p2 := PutState_error s1 a0 (contractJson a0 (ToLower lower a1) (Atoi a2).1)
          rw [h2] at p2
          simp only at p2
          cases e2 with
          | some e2 =>
            rcases p2 with p2 | p2
            · cases p2
            · exact Or.inr (Or.inr (Or.inr (Or.inr ⟨_, p2⟩)))
          | none =>
            simp only
            rcases h3 : GetState s2 contractIndexStr with ⟨⟨b3, e3⟩, s3⟩
            cases e3 with
            | some e3 => exact Or.inr (Or.inr (Or.inr (Or.inl rfl)))
            | none =>
              simp only
              rcases emitEvent_error
                (PutState s3 contractIndexStr
                  (marshalStrings (appendString (unmarshalStrings b3) (ToLower lower a1)))).2
                succeed with he | he | he
              · exact Or.inr (Or.inl (by rw [he]; rfl))
              · exact Or.inr (Or.inr (Or.inl he))
              · exact Or.inr (Or.inr (Or.inr (Or.inr he)))
  · exact Or.inl ⟨rfl, rfl⟩

/-- Either `Init` hands back the stub it was given, or it ends without error or
in the error of a shim call. -/
theorem Init_error_kinds (stub : Stub) (function : String) (args : List String) :
    (Init stub function args).2 = stub ∨
    (Init stub function args).1.2 = none ∨
    ∃ c, (Init stub function args).1.2 = some (GoError.shim c) := by
  have shimErr : ∀ (s : Stub) (k v : String) (e : GoError) (s2 : Stub),
      PutState s k v = (some e, s2) → e = GoError.shim ShimCall.putState := by
    intro s k v e s2 hp
    have p := PutState_error s k v
    rw [hp] at p
    rcases p with p | p
    · cases p
    · exact Option.some.inj p
  rcases args with _ | ⟨a, _ | ⟨b, t⟩⟩
  · exact Or.inl rfl
  · simp only [Init]
    rcases hA : Atoi a with ⟨v, e⟩
    cases e with
    | some e => exact Or.inl rfl
    | none =>
      simp only
      rcases h1 : PutState stub "abc" (Itoa v) with ⟨e1, s1⟩
      cases e1 with
      | some e1 => exact Or.inr (Or.inr ⟨_, congrArg some (shimErr _ _ _ _ _ h1)⟩)
      | none =>
        simp only
        rcases h2 : PutState s1 contractIndexStr (marshalStrings none) with ⟨e2, s2⟩
        cases e2 with
        | some e2 => exact Or.inr (Or.inr ⟨_, congrArg some (shimErr _ _ _ _ _ h2)⟩)
        | none =>
          simp only
          rcases h3 : PutState s2 shipmentIndexStr (marshalStrings none) with ⟨e3, s3⟩
          cases e3 with
          | some e3 => exact Or.inr (Or.inr ⟨_, congrArg some (shimErr _ _ _ _ _ h3)⟩)
          | none =>
            simp only
            rcases h4 : PutState s3 EVENT_COUNTER "1" with ⟨e4, s4⟩
            cases e4 with
            | some e4 => exact Or.inr (Or.inr ⟨_, congrArg some (shimErr _ _ _ _ _ h4)⟩)
            | none => exact Or.inr (Or.inl rfl)
  · exact Or.inl rfl

theorem delete_error_frame (stub : Stub) (args : List String)
    (he : (delete stub args).1.2 ≠ none) :
    (delete stub args).2.ledger = stub.ledger ∧ (delete stub args).2.events = stub.events := by
  rcases args with _ | ⟨a, _ | ⟨b, t⟩⟩
  · exact ⟨rfl, rfl⟩
  · unfold delete DelState at he ⊢
    split_ifs at he ⊢
    · exact ⟨rfl, rfl⟩
    · exact absurd rfl he
  · exact ⟨rfl, rfl⟩

theorem not_validation_none : ¬ isValidationError none := by
  rintro ⟨msg, -, h⟩
  cases h

theorem not_validation_shim (c : ShimCall) : ¬ isValidationError (some (GoError.shim c)) := by
  rintro ⟨msg, -, h⟩
  cases h

theorem not_validation_get_state :
    ¬ isValidationError (some (GoError.new "Failed to get state")) := by
  rintro ⟨msg, hm, h⟩
  cases h
  exact absurd hm (by decide)

theorem not_validation_get_index :
    ¬ isValidationError (some (GoError.new "Failed to get contract terms index")) := by
  rintro ⟨msg, hm, h⟩
  cases h
  exact absurd hm (by decide)

theorem GetState_ok_value (stub : Stub) (key b : String) (s1 : Stub)
    (h : GetState stub key = ((b, none), s1)) : b = (stub.ledger key).getD "" := by
  unfold GetState at h
  split_ifs at h
  · cases h
  · exact (congrArg (fun r => r.1.1) h).symm

theorem PutState_at (stub : Stub) (key value : String) :
    (PutState stub key value).2.ledger key = stub.ledger key ∨
      (PutState stub key value).2.ledger key = some value := by
  unfold PutState
  split_ifs
  · exact Or.inl rfl
  · exact Or.inr (by simp [setKey])

theorem contractIndexOf_congr (s t : Stub)
    (h : s.ledger contractIndexStr = t.ledger contractIndexStr) :
    contractIndexOf s = contractIndexOf t := by
  unfold contractIndexOf
  rw [h]

/-- With a contract identifier other than the index key, `init_terms` leaves the
Contract Index as it was or with the lowercased product type appended, whichever
shim calls fail. -/
theorem init_terms_index (lower : Char → Char) (stub : Stub) (a0 a1 a2 : String)
    (hr : a0 ≠ contractIndexStr) :
    contractIndexOf (init_terms lower stub [a0, a1, a2]).2 = contractIndexOf stub ∨
    contractIndexOf (init_terms lower stub [a0, a1, a2]).2 =
      contractIndexOf stub ++ [ToLower lower a1] := by
  have hce : contractIndexStr ≠ EVENT_COUNTER := by decide
  simp only [init_terms]
  split_ifs
  · exact Or.inl rfl
  · exact Or.inl rfl
  · exact Or.inl rfl
  · rcases h1 : GetState stub a0 with ⟨⟨b, e⟩, s1⟩
    have f1 := (GetState_frame stub a0).1
    rw [h1] at f1
    simp only at f1
    cases e with
    | some e => exact Or.inl (contractIndexOf_congr _ _ (by simp only [f1]))
    | none =>
      simp only
      split_ifs
      · exact Or.inl (contractIndexOf_congr _ _ (by simp only [f1]))
      · rcases h2 : PutState s1 a0 (contractJson a0 (ToLower lower a1) (Atoi a2).1)
          with ⟨e2, s2⟩
        have f2 := (PutState_frame s1 a0 (contractJson a0 (ToLower lower a1) (Atoi a2).1)
          contractIndexStr (Ne.symm hr)).1
        rw [h2] at f2
        simp only at f2
        cases e2 with
        | some e2 => exact Or.inl (contractIndexOf_congr _ _ (by simp only [f2, f1]))
        | none =>
          simp only
          rcases h3 : GetState s2 contractIndexStr with ⟨⟨b3, e3⟩, s3⟩
          have f3 := (GetState_frame s2 contractIndexStr).1
          rw [h3] at f3
          simp only at f3
          cases e3 with
          | some e3 => exact Or.inl (contractIndexOf_congr _ _ (by simp only [f3, f2, f1]))
          | none =>
            simp only
            have hb : b3 = (stub.ledger contractIndexStr).getD "" := by
              rw [GetState_ok_value s2 contractIndexStr b3 s3 h3, f2, f1]
            have fe := emitEvent_frame
              (PutState s3 contractIndexStr
                (marshalStrings (appendString (unmarshalStrings b3) (ToLower lower a1)))).2
              succeed contractIndexStr hce
            rcases PutState_at s3 contractIndexStr
              (marshalStrings (appendString (unmarshalStrings b3) (ToLower lower a1)))
              with hp | hp
            · exact Or.inl (contractIndexOf_congr _ _ (by rw [fe, hp, f3, f2, f1]))
            · refine Or.inr ?_
              unfold contractIndexOf
              rw [fe, hp, hb]
              simp [appendString, unmarshal_marshalStrings, elemsOf]

/-- On a stub whose shim calls succeed, an `init_terms` call that returns no
error emits the one event that carries the counter text read before the
increment, if the contract identifier is not the counter key. -/
theorem init_terms_ok_events (lower : Char → Char) (stub : Stub) (args : List String)
    (N : Int) (h : quiet stub.faults) (hN : counterHolds stub N)
    (hok : (init_terms lower stub args).1.2 = none)
    (hkey : args.head? ≠ some EVENT_COUNTER) :
    (init_terms lower stub args).2.events =
      stub.events ++ [("evtsender", "Event Counter is " ++ Itoa N)] := by
  obtain ⟨a0, a1, a2, rfl, h0, h1, h2, hnew⟩ := init_terms_ok_inv lower stub args h hok
  have hne : EVENT_COUNTER ≠ a0 := by
    intro hc
    exact hkey (by simp [hc])
  have hq : quiet (termsWritten lower stub a0 a1 a2).faults :=
    quiet_tail (quiet_tail (quiet_tail (quiet_tail h)))
  have hci : EVENT_COUNTER ≠ contractIndexStr := by decide
  have hc : (termsWritten lower stub a0 a1 a2).ledger EVENT_COUNTER = some (Itoa N) := by
    unfold counterHolds at hN
    simpa [termsWritten, setKey, hne, hci] using hN
  rw [init_terms_quiet lower stub a0 a1 a2 h h0 h1 h2 hnew, emitEvent_quiet_any _ _ hq, hc]
  rfl

/-- C1 (the code at the failing input): the record written by a first
`init_terms` call decodes to a `ContractTerms` with an empty `ContractID`, so a
second call with the same contract identifier returns no error and appends to
the Contract Index once more. -/
theorem init_terms_duplicate_not_detected :
    (init_terms asciiLower freshStub ["C100", "Produce", "40"]).1 = succeed ∧
    (unmarshalContractTerms (contractJson "C100" "produce" 40) ContractTerms.zero).ContractID
      = "" ∧
    (init_terms asciiLower onceStub ["C100", "Produce", "40"]).1 = succeed ∧
    contractIndexOf onceStub = ["produce"] ∧
    contractIndexOf (init_terms asciiLower onceStub ["C100", "Produce", "40"]).2 =
      ["produce", "produce"] := by
  decide

/-- C3 (the code at the failing input): `shipment_activity` accepts the seven
well-formed arguments and `create_letter_of_credit` rejects an empty argument
list with its count error, yet `Invoke` returns the error "Received unknown
function invocation" for both operations. -/
theorem Invoke_drops_handler_result :
    (shipment_activity freshStub
      ["C100", "500", "35", "38", "CarrierX", "Savannah", "departed"]).1.2 = none ∧
    (Invoke asciiLower freshStub "shipment_activity"
      ["C100", "500", "35", "38", "CarrierX", "Savannah", "departed"]).1.2 =
        some (GoError.new "Received unknown function invocation") ∧
    (create_letter_of_credit freshStub []).1.2 =
      some (GoError.new "Incorrect number of arguments. Expecting 9") ∧
    (Invoke asciiLower freshStub "create_loc" []).1.2 =
      some (GoError.new "Received unknown function invocation") := by
  decide

/-- C4 (the code at the failing input): a third argument that is not an integer
passes `init_terms`, which writes the record with the temperature 0. -/
theorem init_terms_accepts_non_integer :
    ¬ parsesAsInt "hot" ∧
    (init_terms asciiLower freshStub ["C100", "Produce", "hot"]).1 = succeed ∧
    freshStub.ledger "C100" = none ∧
    (init_terms asciiLower freshStub ["C100", "Produce", "hot"]).2.ledger "C100" =
      some (contractJson "C100" "produce" 0) := by
  decide

/-- C5 (as amended): `shipment_activity` returns no error exactly when it is
given 7 arguments, all of them non-empty; no argument is parsed as an integer. -/
theorem shipment_activity_ok_iff (stub : Stub) (args : List String) :
    (shipment_activity stub args).1.2 = none ↔
      args.length = 7 ∧ ∀ a ∈ args, a ≠ "" := by
  rcases args with _ | ⟨a0, _ | ⟨a1, _ | ⟨a2, _ | ⟨a3, _ | ⟨a4, _ | ⟨a5, _ | ⟨a6,
    _ | ⟨a7, t⟩⟩⟩⟩⟩⟩⟩⟩ <;>
    simp [shipment_activity, failWith, succeed]
  simp only [← length_le_zero_iff]
  split_ifs <;> simp_all

/-- C5 (counterexample): seven non-empty arguments whose value and temperatures
are not integers are accepted, so "no error" does not imply that the arguments at
indices 1 to 3 parse as integers. -/
theorem shipment_activity_accepts_non_integers :
    (shipment_activity emptyStub
        ["C100", "abc", "x", "y", "CarrierX", "Savannah", "departed"]).1.2 = none ∧
      ¬ parsesAsInt "abc" ∧ ¬ parsesAsInt "x" ∧ ¬ parsesAsInt "y" := by
  decide

/-- C6: `create_letter_of_credit` returns no error exactly when it is given 9
arguments of which those at indices 0, 1, 3, 4, 5, 6, 7, 8 are non-empty; the
value argument at index 2 is not looked at. -/
theorem create_letter_of_credit_ok_iff (stub : Stub) (args : List String) :
    (create_letter_of_credit stub args).1.2 = none ↔
      args.length = 9 ∧ ∀ i ∈ [0, 1, 3, 4, 5, 6, 7, 8], args.getD i "" ≠ "" := by
  rcases args with _ | ⟨a0, _ | ⟨a1, _ | ⟨a2, _ | ⟨a3, _ | ⟨a4, _ | ⟨a5, _ | ⟨a6, _ | ⟨a7,
    _ | ⟨a8, _ | ⟨a9, t⟩⟩⟩⟩⟩⟩⟩⟩⟩⟩ <;>
    simp [create_letter_of_credit, failWith, succeed]
  simp only [← length_le_zero_iff]
  split_ifs <;> simp_all

/-- C8: with all store calls succeeding, `Init` returns no error exactly when it
is given one argument and `strconv.Atoi` accepts it; then "abc" holds the decimal
text of the parsed integer, both indices decode to the empty sequence, the Event
Counter holds "1", and every other key keeps its value. -/
theorem Init_spec (stub : Stub) (function : String) (args : List String)
    (h : stub.healthy) :
    ((Init stub function args).1.2 = none ↔ ∃ a, args = [a] ∧ parsesAsInt a) ∧
    (∀ a, args = [a] → parsesAsInt a →
      (Init stub function args).2.ledger "abc" = some (Itoa (Atoi a).1) ∧
      contractIndexOf (Init stub function args).2 = [] ∧
      shipmentIndexOf (Init stub function args).2 = [] ∧
      (Init stub function args).2.ledger EVENT_COUNTER = some "1" ∧
      ∀ k, k ≠ "abc" → k ≠ contractIndexStr → k ≠ shipmentIndexStr → k ≠ EVENT_COUNTER →
        (Init stub function args).2.ledger k = stub.ledger k) := by
  refine ⟨⟨fun hok => ?_, ?_⟩, ?_⟩
  · by_contra hn
    exact (Init_error_of_not_int stub function args hn).1 hok
  · rintro ⟨a, rfl, ha⟩
    exact (Init_ok_effect stub function a h ha).1
  · rintro a rfl ha
    exact (Init_ok_effect stub function a h ha).2

/-- C8 (witness): `Init(["5"])` on the empty ledger. -/
theorem Init_spec_witness :
    emptyStub.healthy ∧
    (((Init emptyStub "init" ["5"]).1.2 = none ↔ ∃ a, ["5"] = [a] ∧ parsesAsInt a) ∧
    (∀ a, ["5"] = [a] → parsesAsInt a →
      (Init emptyStub "init" ["5"]).2.ledger "abc" = some (Itoa (Atoi a).1) ∧
      contractIndexOf (Init emptyStub "init" ["5"]).2 = [] ∧
      shipmentIndexOf (Init emptyStub "init" ["5"]).2 = [] ∧
      (Init emptyStub "init" ["5"]).2.ledger EVENT_COUNTER = some "1" ∧
      ∀ k, k ≠ "abc" → k ≠ contractIndexStr → k ≠ shipmentIndexStr → k ≠ EVENT_COUNTER →
        (Init emptyStub "init" ["5"]).2.ledger k = emptyStub.ledger k)) :=
  ⟨quiet_nil, Init_spec emptyStub "init" ["5"] quiet_nil⟩

/-- C9 (as amended): reinitialisation is idempotent.  With all store calls
succeeding and `a`, `b` accepted by `strconv.Atoi`, `Init([a])` followed by
`Init([b])` returns no error both times, each time leaves both indices empty and
the Event Counter at 1, and ends in the ledger that `Init([b])` alone produces
from the starting state; `Invoke("init", args)` is `Init(args)`. -/
theorem Init_twice (lower : Char → Char) (stub : Stub) (a b : String) (h : stub.healthy)
    (ha : parsesAsInt a) (hb : parsesAsInt b) :
    (Init stub "init" [a]).1.2 = none ∧
    contractIndexOf (Init stub "init" [a]).2 = [] ∧
    shipmentIndexOf (Init stub "init" [a]).2 = [] ∧
    counterHolds (Init stub "init" [a]).2 1 ∧
    (Init (Init stub "init" [a]).2 "init" [b]).1.2 = none ∧
    contractIndexOf (Init (Init stub "init" [a]).2 "init" [b]).2 = [] ∧
    shipmentIndexOf (Init (Init stub "init" [a]).2 "init" [b]).2 = [] ∧
    counterHolds (Init (Init stub "init" [a]).2 "init" [b]).2 1 ∧
    (Init (Init stub "init" [a]).2 "init" [b]).2.ledger = (Init stub "init" [b]).2.ledger ∧
    Invoke lower stub "init" [a] = Init stub "init" [a] ∧
    Invoke lower (Init stub "init" [a]).2 "init" [b] =
      Init (Init stub "init" [a]).2 "init" [b] := by
  have h1 : (Init stub "init" [a]).2.healthy := by
    rw [Init_ok_eq stub "init" a h ha]
    exact quiet_tail (quiet_tail (quiet_tail (quiet_tail h)))
  have one : Itoa 1 = "1" := by decide
  obtain ⟨e1, -, i1, s1, c1, -⟩ := Init_ok_effect stub "init" a h ha
  obtain ⟨e2, -, i2, s2, c2, -⟩ := Init_ok_effect (Init stub "init" [a]).2 "init" b h1 hb
  refine ⟨e1, i1, s1, ?_, e2, i2, s2, ?_, ?_, ?_, ?_⟩
  · rw [counterHolds, one]
    exact c1
  · rw [counterHolds, one]
    exact c2
  · rw [Init_ok_eq _ "init" b h1 hb, Init_ok_eq stub "init" b h hb,
      Init_ok_eq stub "init" a h ha]
    funext k
    simp only [setKey]
    split_ifs <;> rfl
  · simp [Invoke]
  · simp [Invoke]

/-- C9 (witness): `Init(["5"])` then `Init(["7"])` on the empty ledger. -/
theorem Init_twice_witness :
    emptyStub.healthy ∧ parsesAsInt "5" ∧ parsesAsInt "7" ∧
    (Init (Init emptyStub "init" ["5"]).2 "init" ["7"]).2.ledger =
      (Init emptyStub "init" ["7"]).2.ledger :=
  ⟨quiet_nil, by decide, by decide,
    (Init_twice asciiLower emptyStub "5" "7" quiet_nil (by decide) (by decide)).2.2.2.2.2.2.2.2.1⟩

/-- C9 (counterexample): `Init(["5"])` does not succeed when its first `PutState`
fails, directly or through `Invoke`, and `Init` rejects the integer string
"99999999999999999999", which does not fit an `int`, although every store call
succeeds. -/
theorem Init_can_fail :
    parsesAsInt "5" ∧
    (Init (faultyStub [true]) "init" ["5"]).1.2 = some (GoError.shim ShimCall.putState) ∧
    (Invoke asciiLower (faultyStub [true]) "init" ["5"]).1.2 =
      some (GoError.shim ShimCall.putState) ∧
    (Init (faultyStub [false, false, false, true]) "init" ["5"]).1.2 =
      some (GoError.shim ShimCall.putState) ∧
    freshStub.healthy ∧
    (Init freshStub "init" ["99999999999999999999"]).1.2 =
      some (GoError.new "Expecting integer value for asset holding") := by
  decide

/-- C11 (as amended): with the store calls succeeding, after `delete([k])` the key
`k` is absent and a `GetState` of it returns no bytes; every other key keeps its
value, so the Contract Index and the Shipment Index are as before unless `k` is
the index key itself. -/
theorem delete_spec (stub : Stub) (k : String) (h : stub.healthy) :
    (delete stub [k]).1 = succeed ∧
    (delete stub [k]).2.ledger k = none ∧
    (GetState (delete stub [k]).2 k).1 = ("", none) ∧
    (k ≠ contractIndexStr →
      (delete stub [k]).2.ledger contractIndexStr = stub.ledger contractIndexStr) ∧
    (k ≠ shipmentIndexStr →
      (delete stub [k]).2.ledger shipmentIndexStr = stub.ledger shipmentIndexStr) ∧
    (∀ j, j ≠ k → (delete stub [k]).2.ledger j = stub.ledger j) := by
  have hq : quiet stub.faults := h
  have frame : ∀ j, j ≠ k → (delete stub [k]).2.ledger j = stub.ledger j := by
    intro j hj
    rw [delete_quiet stub k hq]
    simp [dropKey, hj]
  refine ⟨?_, ?_, ?_, fun hk => frame _ (Ne.symm hk), fun hk => frame _ (Ne.symm hk), frame⟩
  · rw [delete_quiet stub k hq]
  · rw [delete_quiet stub k hq]
    simp [dropKey]
  · rw [delete_quiet stub k hq, GetState_quiet _ _ (quiet_tail hq)]
    simp [dropKey]

/-- C11 (witness): deleting the scratch key "abc" right after `Init`. -/
theorem delete_spec_witness :
    freshStub.healthy ∧ freshStub.ledger "abc" = some "0" ∧
    (delete freshStub ["abc"]).2.ledger "abc" = none ∧
    (delete freshStub ["abc"]).2.ledger contractIndexStr = freshStub.ledger contractIndexStr :=
  have w := delete_spec freshStub "abc" (by decide)
  ⟨by decide, by decide, w.2.1, w.2.2.2.1 (by decide)⟩

/-- C11 (counterexample): `delete(["_contractindex"])` removes the Contract Index
itself, so the value stored under the index key is not the one before the call. -/
theorem delete_removes_index_key :
    freshStub.healthy ∧
    freshStub.ledger "_contractindex" = some "null" ∧
    (delete freshStub ["_contractindex"]).1 = succeed ∧
    (delete freshStub ["_contractindex"]).2.ledger "_contractindex" = none ∧
    (delete freshStub ["_contractindex"]).2.ledger "_contractindex" ≠
      freshStub.ledger "_contractindex" := by
  decide

/-- C12: validation failure is atomic.  Whenever `Init`, `init_terms`,
`create_letter_of_credit`, `shipment_activity`, `delete` or `Query` returns an
argument-count, empty-argument or non-integer error, the ledger and the list of
events are those before the call. -/
theorem validation_failure_atomic (lower : Char → Char) (stub : Stub) (function : String)
    (args : List String) :
    (isValidationError (Init stub function args).1.2 →
      (Init stub function args).2.ledger = stub.ledger ∧
      (Init stub function args).2.events = stub.events) ∧
    (isValidationError (init_terms lower stub args).1.2 →
      (init_terms lower stub args).2.ledger = stub.ledger ∧
      (init_terms lower stub args).2.events = stub.events) ∧
    (isValidationError (create_letter_of_credit stub args).1.2 →
      (create_letter_of_credit stub args).2.ledger = stub.ledger ∧
      (create_letter_of_credit stub args).2.events = stub.events) ∧
    (isValidationError (shipment_activity stub args).1.2 →
      (shipment_activity stub args).2.ledger = stub.ledger ∧
      (shipment_activity stub args).2.events = stub.events) ∧
    (isValidationError (delete stub args).1.2 →
      (delete stub args).2.ledger = stub.ledger ∧
      (delete stub args).2.events = stub.events) ∧
    (isValidationError (Query stub function args).1.2 →
      (Query stub function args).2.ledger = stub.ledger ∧
      (Query stub function args).2.events = stub.events) := by
  refine ⟨?_, ?_, ?_, ?_, ?_, ?_⟩
  · intro hv
    rcases Init_error_kinds stub function args with h | h | ⟨c, h⟩
    · rw [h]
      exact ⟨rfl, rfl⟩
    · rw [h] at hv
      exact absurd hv not_validation_none
    · rw [h] at hv
      exact absurd hv (not_validation_shim c)
  · intro hv
    rcases init_terms_error_kinds lower stub args with h | h | h | h | ⟨c, h⟩
    · exact h
    · rw [h] at hv
      exact absurd hv not_validation_none
    · rw [h] at hv
      exact absurd hv not_validation_get_state
    · rw [h] at hv
      exact absurd hv not_validation_get_index
    · rw [h] at hv
      exact absurd hv (not_validation_shim c)
  · intro _
    rw [create_letter_of_credit_stub]
    exact ⟨rfl, rfl⟩
  · intro _
    rw [shipment_activity_stub]
    exact ⟨rfl, rfl⟩
  · intro hv
    exact delete_error_frame stub args (fun hn => not_validation_none (hn ▸ hv))
  · intro _
    rw [Query_stub]
    exact ⟨rfl, rfl⟩

/-- C12 (witness): `init_terms` with an empty product type and `Init` with a
non-integer argument, right after `Init`. -/
theorem validation_failure_atomic_witness :
    isValidationError (init_terms asciiLower freshStub ["C100", "", "40"]).1.2 ∧
    (init_terms asciiLower freshStub ["C100", "", "40"]).2.ledger = freshStub.ledger ∧
    (init_terms asciiLower freshStub ["C100", "", "40"]).2.events = freshStub.events ∧
    isValidationError (Init freshStub "init" ["x"]).1.2 ∧
    (Init freshStub "init" ["x"]).2.ledger = freshStub.ledger :=
  have w := validation_failure_atomic asciiLower freshStub "init" ["C100", "", "40"]
  have v := validation_failure_atomic asciiLower freshStub "init" ["x"]
  have h1 : isValidationError (init_terms asciiLower freshStub ["C100", "", "40"]).1.2 :=
    ⟨"2nd argument must be a number", by decide, by decide⟩
  have h2 : isValidationError (Init freshStub "init" ["x"]).1.2 :=
    ⟨"Expecting integer value for asset holding", by decide, by decide⟩
  ⟨h1, (w.2.1 h1).1, (w.2.1 h1).2, h2, (v.1 h2).1⟩

/-- C13 (as amended): the Contract Index is append-only.  For every operation
name other than "init" and every argument list, whichever shim calls fail, the
sequence the index decodes to before `Invoke` is a leading part of the sequence
it decodes to afterwards, provided that an "init_contract_terms" call does not
use the index key "_contractindex" as its contract identifier. -/
theorem contract_index_append_only (lower : Char → Char) (stub : Stub) (function : String)
    (args : List String) (hinit : function ≠ "init")
    (hkey : function = "init_contract_terms" → args.head? ≠ some contractIndexStr) :
    ∃ t, contractIndexOf (Invoke lower stub function args).2 = contractIndexOf stub ++ t := by
  by_cases h2 : function = "init_contract_terms"
  · have hk := hkey h2
    subst h2
    have e : Invoke lower stub "init_contract_terms" args = init_terms lower stub args := by
      simp [Invoke]
    rw [e]
    rcases args with _ | ⟨a0, _ | ⟨a1, _ | ⟨a2, _ | ⟨a3, t⟩⟩⟩⟩
    · exact ⟨[], by simp [init_terms]⟩
    · exact ⟨[], by simp [init_terms]⟩
    · exact ⟨[], by simp [init_terms]⟩
    · have hr : a0 ≠ contractIndexStr := by
        intro hc
        exact hk (by simp [hc])
      rcases init_terms_index lower stub a0 a1 a2 hr with h | h
      · exact ⟨[], by rw [h, List.append_nil]⟩
      · exact ⟨_, h⟩
    · exact ⟨[], by simp [init_terms]⟩
  · have hce : contractIndexStr ≠ EVENT_COUNTER := by decide
    rw [Invoke_fallthrough lower stub function args hinit h2]
    exact ⟨[], by
      rw [List.append_nil]
      exact contractIndexOf_congr _ _ (emitEvent_frame stub _ contractIndexStr hce)⟩

/-- C13 (witness): a first `init_contract_terms` call right after `Init`. -/
theorem contract_index_append_only_witness :
    contractIndexOf freshStub = [] ∧
    contractIndexOf
      (Invoke asciiLower freshStub "init_contract_terms" ["C100", "Produce", "40"]).2 =
        ["produce"] ∧
    ∃ t, contractIndexOf
      (Invoke asciiLower freshStub "init_contract_terms" ["C100", "Produce", "40"]).2 =
        contractIndexOf freshStub ++ t :=
  ⟨by decide, by decide,
    contract_index_append_only asciiLower freshStub "init_contract_terms"
      ["C100", "Produce", "40"] (by decide) (fun _ => by decide)⟩

/-- C13 (counterexample): an "init_contract_terms" call whose contract identifier
is "_contractindex" replaces the index `["a"]` by `["produce"]`, of which `["a"]`
is no leading part. -/
theorem index_key_as_contract_id_drops_entries :
    contractIndexOf (indexStub "[\"a\"]") = ["a"] ∧
    contractIndexOf
      (Invoke asciiLower (indexStub "[\"a\"]") "init_contract_terms"
        ["_contractindex", "Produce", "40"]).2 = ["produce"] ∧
    ¬ ∃ t, ["produce"] = ["a"] ++ t := by
  refine ⟨by decide, by decide, ?_⟩
  rintro ⟨t, ht⟩
  simp at ht

/-- C14: `create_letter_of_credit` and `shipment_activity` hand back the stub they
were given, whatever the arguments, and `Invoke` of "create_loc" or
"shipment_activity" changes no key other than "event_counter". -/
theorem validated_handlers_persist_nothing (lower : Char → Char) (stub : Stub)
    (args : List String) :
    (create_letter_of_credit stub args).2 = stub ∧
    (shipment_activity stub args).2 = stub ∧
    (∀ k, k ≠ EVENT_COUNTER →
      (Invoke lower stub "create_loc" args).2.ledger k = stub.ledger k) ∧
    (∀ k, k ≠ EVENT_COUNTER →
      (Invoke lower stub "shipment_activity" args).2.ledger k = stub.ledger k) := by
  refine ⟨create_letter_of_credit_stub stub args, shipment_activity_stub stub args, ?_, ?_⟩
  · intro k hk
    rw [Invoke_fallthrough lower stub "create_loc" args (by decide) (by decide)]
    exact emitEvent_frame stub _ k hk
  · intro k hk
    rw [Invoke_fallthrough lower stub "shipment_activity" args (by decide) (by decide)]
    exact emitEvent_frame stub _ k hk

/-- C14 (witness): recording the seven well-formed shipment arguments right
after `Init` leaves no record under "C100" and keeps both indices. -/
theorem validated_handlers_persist_nothing_witness :
    freshStub.ledger "C100" = none ∧
    (shipment_activity freshStub
      ["C100", "500", "35", "38", "CarrierX", "Savannah", "departed"]).2 = freshStub ∧
    (Invoke asciiLower freshStub "shipment_activity"
      ["C100", "500", "35", "38", "CarrierX", "Savannah", "departed"]).2.ledger "C100" =
        freshStub.ledger "C100" ∧
    (Invoke asciiLower freshStub "shipment_activity"
      ["C100", "500", "35", "38", "CarrierX", "Savannah", "departed"]).2.ledger
        shipmentIndexStr = freshStub.ledger shipmentIndexStr :=
  have w := validated_handlers_persist_nothing asciiLower freshStub
    ["C100", "500", "35", "38", "CarrierX", "Savannah", "departed"]
  ⟨by decide, w.2.1, w.2.2.2 "C100" (by decide), w.2.2.2 shipmentIndexStr (by decide)⟩

/-- C15 (the code at the failing input): when the `PutState` of the Contract
Index fails (fourth shim call), `init_terms` still returns no error; the record
is written and the index is unchanged.  When the `GetState` of the index fails
(third shim call) the error is returned and the record is present. -/
theorem index_write_failure_unreported :
    (init_terms asciiLower (faultyStub [false, false, false, true])
      ["C100", "Produce", "40"]).1 = succeed ∧
    (init_terms asciiLower (faultyStub [false, false, false, true])
      ["C100", "Produce", "40"]).2.ledger "C100" = some (contractJson "C100" "produce" 40) ∧
    (init_terms asciiLower (faultyStub [false, false, false, true])
      ["C100", "Produce", "40"]).2.ledger contractIndexStr = some "null" ∧
    (init_terms asciiLower (faultyStub [false, false, true])
      ["C100", "Produce", "40"]).1 = failWith "Failed to get contract terms index" ∧
    (init_terms asciiLower (faultyStub [false, false, true])
      ["C100", "Produce", "40"]).2.ledger "C100" = some (contractJson "C100" "produce" 40) := by
  decide

/-- C16: with all store and event calls succeeding and the Event Counter holding
the decimal text of N, every `Invoke` other than "init", an "init_contract_terms"
call included when it returns no error and its contract identifier is not the
counter key, adds exactly one event: topic "evtsender", payload
"Event Counter is " followed by the decimal text of N. -/
theorem Invoke_emits_counter_event (lower : Char → Char) (stub : Stub) (function : String)
    (args : List String) (N : Int) (h : stub.healthy) (hN : counterHolds stub N)
    (hinit : function ≠ "init")
    (hterms : function = "init_contract_terms" →
      (Invoke lower stub function args).1.2 = none ∧ args.head? ≠ some EVENT_COUNTER) :
    (Invoke lower stub function args).2.events =
      stub.events ++ [("evtsender", "Event Counter is " ++ Itoa N)] := by
  by_cases h2 : function = "init_contract_terms"
  · obtain ⟨hok, hkey⟩ := hterms h2
    subst h2
    have e : Invoke lower stub "init_contract_terms" args = init_terms lower stub args := by
      simp [Invoke]
    rw [e] at hok ⊢
    exact init_terms_ok_events lower stub args N h hN hok hkey
  · have hc : stub.ledger EVENT_COUNTER = some (Itoa N) := hN
    rw [Invoke_fallthrough lower stub function args hinit h2, emitEvent_quiet_any stub _ h]
    simp [hc]

/-- C16 (witness): an unknown operation and a first "init_contract_terms" call
right after `Init`, where the counter holds 1. -/
theorem Invoke_emits_counter_event_witness :
    freshStub.healthy ∧ counterHolds freshStub 1 ∧ freshStub.events = [] ∧
    (Invoke asciiLower freshStub "unknown_op" []).2.events =
      freshStub.events ++ [("evtsender", "Event Counter is " ++ Itoa 1)] ∧
    (Invoke asciiLower freshStub "init_contract_terms" ["C100", "Produce", "40"]).2.events =
      freshStub.events ++ [("evtsender", "Event Counter is " ++ Itoa 1)] :=
  ⟨by decide, by decide, by decide,
    Invoke_emits_counter_event asciiLower freshStub "unknown_op" [] 1 (by decide) (by decide)
      (by decide) (fun hf => absurd hf (by decide)),
    Invoke_emits_counter_event asciiLower freshStub "init_contract_terms"
      ["C100", "Produce", "40"] 1 (by decide) (by decide) (by decide)
      (fun _ => ⟨by decide, by decide⟩)⟩

/-- C17: `Query` returns an error exactly when the function name is not "query"
or the argument count is not 1; otherwise it returns no content and no error; in
every case it leaves the stub (ledger and events) as it was. -/
theorem Query_spec (stub : Stub) (function : String) (args : List String) :
    ((Query stub function args).1.2 ≠ none ↔ (function ≠ "query" ∨ args.length ≠ 1)) ∧
    ((Query stub function args).1.2 = none → (Query stub function args).1 = (none, none)) ∧
    (Query stub function args).1.1 = none ∧
    (Query stub function args).2.ledger = stub.ledger ∧
    (Query stub function args).2.events = stub.events := by
  rw [Query_stub]
  refine ⟨?_, ?_, ?_, rfl, rfl⟩
  · by_cases hf : function = "query"
    · rcases args with _ | ⟨a, _ | ⟨b, t⟩⟩ <;> simp [Query, hf, failWith, succeed]
    · simp [Query, hf, failWith]
  · by_cases hf : function = "query"
    · rcases args with _ | ⟨a, _ | ⟨b, t⟩⟩ <;> simp [Query, hf, failWith, succeed]
    · simp [Query, hf, failWith]
  · by_cases hf : function = "query"
    · rcases args with _ | ⟨a, _ | ⟨b, t⟩⟩ <;> simp [Query, hf, failWith, succeed]
    · simp [Query, hf, failWith]

/-- C17 (witness): `Query("query", ["C100"])` right after `Init`. -/
theorem Query_spec_witness :
    (Query freshStub "query" ["C100"]).1.2 = none ∧
    (Query freshStub "query" ["C100"]).1 = (none, none) ∧
    (Query freshStub "query" ["C100"]).2.ledger = freshStub.ledger :=
  have w := Query_spec freshStub "query" ["C100"]
  ⟨by decide, w.2.1 (by decide), w.2.2.2.1⟩

/-- C18 (the code at the failing input): for an empty second argument
`init_terms` answers "2nd argument must be a number", where the sibling handlers
answer "2nd argument must be a non-empty string". -/
theorem empty_product_type_message :
    (init_terms asciiLower freshStub ["C100", "", "40"]).1.2 =
      some (GoError.new "2nd argument must be a number") ∧
    (shipment_activity freshStub ["C100", "", "35", "38", "CarrierX", "Savannah",
      "departed"]).1.2 = some (GoError.new "2nd argument must be a non-empty string") ∧
    (create_letter_of_credit freshStub ["C100", "", "500", "I", "E", "S", "C", "L", "P"]).1.2 =
      some (GoError.new "2nd argument must be a non-empty string") := by
  decide

/-- C19 (the code at the failing input): the bytes that `init_terms` writes under
the contract identifier decode to the zero `ContractTerms`: none of the three
fields is read back. -/
theorem written_record_decodes_to_zero :
    onceStub.ledger "C100" = some (contractJson "C100" "produce" 40) ∧
    unmarshalContractTerms ((onceStub.ledger "C100").getD "") ContractTerms.zero =
      ContractTerms.zero ∧
    (unmarshalContractTerms ((onceStub.ledger "C100").getD "") ContractTerms.zero).ContractID
      ≠ "C100" ∧
    (unmarshalContractTerms ((onceStub.ledger "C100").getD "")
      ContractTerms.zero).Product_Type ≠ "produce" ∧
    (unmarshalContractTerms ((onceStub.ledger "C100").getD "")
      ContractTerms.zero).Max_Temperature_F ≠ 40 := by
  decide

end Chaincode
